import Mathlib

/-!
Verification of the SlotsRaffle allocator (`raffle.py`).

The Python source is shallowly embedded: each Python function becomes a Lean
definition of the same name.  Process termination via `exit(1)` is modelled by
`Except.error`; the randomness consumed by `randrange` and `random.shuffle` is
modelled by an explicit list of natural numbers, one entry per random draw
(`randrange(n)` becomes `r % n` for the next entry `r`).  Python string
primitives (`str.strip`, `str.lower`, `int(...)`) are modelled by structurally
recursive functions over the character list of the string.
-/

namespace SlotsRaffle

/-- The whitespace class of Python `str.isspace()` / `str.strip()`: the ASCII
control whitespace 9-13 (tab, LF, VT, FF, CR) and 28-31 (FS, GS, RS, US),
space, NEL, NBSP, and the Unicode space separators and line/paragraph
separators. -/
def isPySpace (c : Char) : Bool :=
  decide ((9 ≤ c.toNat ∧ c.toNat ≤ 13) ∨ (28 ≤ c.toNat ∧ c.toNat ≤ 31) ∨
    c.toNat = 32 ∨ c.toNat = 133 ∨ c.toNat = 160 ∨ c.toNat = 5760 ∨
    (8192 ≤ c.toNat ∧ c.toNat ≤ 8202) ∨ c.toNat = 8232 ∨ c.toNat = 8233 ∨
    c.toNat = 8239 ∨ c.toNat = 8287 ∨ c.toNat = 12288)

/-- Model of Python `str.strip()`: drop Python-whitespace characters from
both ends. -/
def strip (s : String) : String :=
  String.mk (((s.data.dropWhile isPySpace).reverse.dropWhile
    isPySpace).reverse)

/-- Model of Python `str.lower()`: lowercase every character. -/
def lower (s : String) : String :=
  String.mk (s.data.map Char.toLower)

/-- Value of a decimal digit character, if it is one. -/
def digitVal (c : Char) : Option Nat :=
  if '0' ≤ c ∧ c ≤ '9' then some (c.toNat - '0'.toNat) else none

/-- Accumulate decimal digits; fails on any non-digit character. -/
def digitsToNatAux : List Char → Nat → Option Nat
  | [], acc => some acc
  | c :: cs, acc =>
    match digitVal c with
    | none => none
    | some d => digitsToNatAux cs (acc * 10 + d)

/-- Model of Python `int(value)`: optional surrounding whitespace, optional
sign, then a nonempty run of decimal digits. -/
def parse_int (s : String) : Option Int :=
  match (strip s).data with
  | [] => none
  | '-' :: cs =>
    if cs.isEmpty then none
    else (digitsToNatAux cs 0).map (fun n => -(n : Int))
  | '+' :: cs =>
    if cs.isEmpty then none
    else (digitsToNatAux cs 0).map (fun n => (n : Int))
  | cs => (digitsToNatAux cs 0).map (fun n => (n : Int))

/-- A validated resident record (one row of the residents file). -/
structure Resident where
  id : String
  slots : Nat
  disabled : Bool
  elderly : Bool
  defaulting : Bool
  deriving DecidableEq

/-- A validated slot record (one row of the slots file). -/
structure Slot where
  id : String
  disabled : Bool
  elderly : Bool
  deriving DecidableEq

/-- The fatal errors of `raffle.py`; each `click.echo(...); exit(1)` site is one
constructor, carrying the data interpolated into the printed message. -/
inductive RaffleError where
  | fieldMissing (key : String) (line : Nat)
  | fieldEmpty (key : String) (line : Nat)
  | notInteger (key : String) (line : Nat)
  | lessThanOne (key : String) (line : Nat)
  | badBool (key : String) (line : Nat)
  | duplicateId (id : String) (line : Nat)
  | countMismatch
  | noMoreSlots (category : String)
  deriving DecidableEq

/-- Embeds `select_random_slot(slots, category)`.  The extra argument `r` is
the value produced by the random source for this call; Python
`randrange(remaining_slots)` is modelled as `r % slots.length`, and
`slots.pop(i)` as returning element `i` and `List.eraseIdx`. -/
def select_random_slot (slots : List String) (r : Nat) (category : String) :
    Except RaffleError (String × List String) :=
  if h : slots.length ≤ 0 then
    .error (.noMoreSlots category)
  else
    .ok (slots.get ⟨r % slots.length, Nat.mod_lt r (by omega)⟩,
      slots.eraseIdx (r % slots.length))

/-- The `slots_disabled` pool built at the top of `do_raffle`: ids of slots
whose `disabled` field is true. -/
def slots_disabled (slots : List Slot) : List String :=
  (slots.filter (fun s => s.disabled)).map (fun s => s.id)

/-- The `slots_elderly` pool built at the top of `do_raffle`: ids of slots
whose `elderly` field is true. -/
def slots_elderly (slots : List Slot) : List String :=
  (slots.filter (fun s => s.elderly)).map (fun s => s.id)

/-- The `slots_rest` pool built at the top of `do_raffle`: ids of slots with
neither flag set. -/
def slots_rest (slots : List Slot) : List String :=
  (slots.filter (fun s => !s.disabled && !s.elderly)).map (fun s => s.id)

/-- The three mutable pool variables of `do_raffle`, gathered in one state. -/
structure RafflePools where
  disabled : List String
  elderly : List String
  rest : List String
  deriving DecidableEq

/-- The initial pools of `do_raffle`. -/
def initPools (slots : List Slot) : RafflePools :=
  ⟨slots_disabled slots, slots_elderly slots, slots_rest slots⟩

/-- The inner loop of `do_raffle`: `for i in range(resident['slots'])`,
threading the accumulated `slots_for_resident` list (`acc`), the three pools
and the random source.  The branch conditions are those of lines 123-133 of
`raffle.py`, including the `len(slots_for_resident) <= 0` guards. -/
def allocUnits (res : Resident) :
    Nat → List String → RafflePools → List Nat →
    Except RaffleError (List String × RafflePools × List Nat)
  | 0, acc, pools, rng => .ok (acc, pools, rng)
  | n + 1, acc, pools, rng =>
    if res.disabled ∧ acc.length ≤ 0 then
      match select_random_slot pools.disabled (rng.headD 0) "disabled" with
      | .error e => .error e
      | .ok (s, p) =>
        allocUnits res n (acc ++ [s]) ⟨p, pools.elderly, pools.rest⟩ rng.tail
    else if res.elderly ∧ ¬res.defaulting ∧ acc.length ≤ 0 then
      match select_random_slot pools.elderly (rng.headD 0) "elderly" with
      | .error e => .error e
      | .ok (s, p) =>
        allocUnits res n (acc ++ [s]) ⟨pools.disabled, p, pools.rest⟩ rng.tail
    else
      match select_random_slot pools.rest (rng.headD 0) "regular" with
      | .error e => .error e
      | .ok (s, p) =>
        allocUnits res n (acc ++ [s]) ⟨pools.disabled, pools.elderly, p⟩ rng.tail

/-- The outer loop of `do_raffle`: one `allocUnits` pass per resident, in the
given (already shuffled) order, building the output association list in
insertion order as the Python dict does. -/
def do_raffle_aux :
    List Resident → RafflePools → List Nat →
    Except RaffleError (List (String × List String) × RafflePools × List Nat)
  | [], pools, rng => .ok ([], pools, rng)
  | r :: rs, pools, rng =>
    match allocUnits r r.slots [] pools rng with
    | .error e => .error e
    | .ok (assigned, pools', rng') =>
      match do_raffle_aux rs pools' rng' with
      | .error e => .error e
      | .ok (out, pools'', rng'') => .ok ((r.id, assigned) :: out, pools'', rng'')

/-- Embeds `do_raffle(residents, slots)`.  `residents` is the value list of the
(shuffled) residents dict, `slots` the value list of the slots dict, `rng` the
random source consumed by the draws. -/
def do_raffle (residents : List Resident) (slots : List Slot) (rng : List Nat) :
    Except RaffleError (List (String × List String)) :=
  match do_raffle_aux residents (initPools slots) rng with
  | .error e => .error e
  | .ok (out, _, _) => .ok out

/-- All slot ids assigned across all residents, in output order. -/
def all_assigned (out : List (String × List String)) : List String :=
  (out.map Prod.snd).flatten

/-- The contents of the three pools, concatenated. -/
def poolsList (p : RafflePools) : List String :=
  p.disabled ++ p.elderly ++ p.rest

/-- Removing the element at a valid index and re-consing it yields a
permutation of the original list. -/
theorem perm_get_cons_eraseIdx {α : Type} :
    ∀ (l : List α) (i : Nat) (h : i < l.length),
      l.Perm (l.get ⟨i, h⟩ :: l.eraseIdx i)
  | [], i, h => by simp at h
  | a :: t, 0, _ => by simp [List.eraseIdx]
  | a :: t, i + 1, h => by
    have hi : i < t.length := Nat.lt_of_succ_lt_succ h
    have ih := perm_get_cons_eraseIdx t i hi
    have h1 : (a :: t).Perm (a :: (t.get ⟨i, hi⟩ :: t.eraseIdx i)) := ih.cons a
    have h2 := List.Perm.swap (t.get ⟨i, hi⟩) a (t.eraseIdx i)
    exact h1.trans h2

/-- A successful draw returns an element of the pool, and the leftover pool is
the original with that one occurrence removed. -/
theorem select_random_slot_ok {pool : List String} {r : Nat} {cat : String}
    {s : String} {p : List String}
    (h : select_random_slot pool r cat = .ok (s, p)) :
    s ∈ pool ∧ p.Sublist pool ∧ pool.Perm (s :: p) := by
  unfold select_random_slot at h
  split at h
  · simp at h
  · rename_i hlen
    simp only [Except.ok.injEq, Prod.mk.injEq] at h
    obtain ⟨hs, hp⟩ := h
    subst hs
    subst hp
    refine ⟨List.get_mem _ _ _, List.eraseIdx_sublist _ _, ?_⟩
    exact perm_get_cons_eraseIdx pool _ (Nat.mod_lt r (by omega))

/-- Master invariant of the inner allocation loop: on success the result
extends the accumulator by exactly `n` new ids, the ids drawn plus the
leftover pools are a permutation of the entry pools, the pools only shrink,
and whenever the accumulator is already nonempty (or the resident can never
satisfy a priority branch) every draw comes from the rest pool, leaving the
priority pools untouched. -/
theorem allocUnits_spec (res : Resident) (n : Nat) :
    ∀ (acc : List String) (pools : RafflePools) (rng : List Nat)
      (out : List String) (ps : RafflePools) (rg : List Nat),
      allocUnits res n acc pools rng = .ok (out, ps, rg) →
      ∃ newly,
        out = acc ++ newly ∧
        newly.length = n ∧
        (poolsList pools).Perm (newly ++ poolsList ps) ∧
        ps.disabled.Sublist pools.disabled ∧
        ps.elderly.Sublist pools.elderly ∧
        ps.rest.Sublist pools.rest ∧
        (1 ≤ acc.length ∨
            (res.disabled = false ∧ (res.elderly = false ∨ res.defaulting = true)) →
          (∀ x ∈ newly, x ∈ pools.rest) ∧ ps.disabled = pools.disabled ∧
            ps.elderly = pools.elderly) := by
  induction n with
  | zero =>
    intro acc pools rng out ps rg h
    simp only [allocUnits, Except.ok.injEq, Prod.mk.injEq] at h
    obtain ⟨h1, h2, h3⟩ := h
    subst h1; subst h2
    exact ⟨[], by simp, rfl, by simp [List.Perm.refl], List.Sublist.refl _,
      List.Sublist.refl _, List.Sublist.refl _, fun _ => ⟨by simp, rfl, rfl⟩⟩
  | succ n ih =>
    intro acc pools rng out ps rg h
    simp only [allocUnits] at h
    split at h
    · -- disabled-priority branch
      rename_i hcond
      split at h
      · simp at h
      · rename_i s p heq
        obtain ⟨hmem, hsub, hperm⟩ := select_random_slot_ok heq
        obtain ⟨newly', hout, hlen, hP, hd, he, hr, hguard⟩ :=
          ih (acc ++ [s]) ⟨p, pools.elderly, pools.rest⟩ rng.tail out ps rg h
        refine ⟨s :: newly', by simp [hout], by simp [hlen], ?_, hd.trans hsub,
          he, hr, ?_⟩
        · have step : (poolsList pools).Perm
              (s :: poolsList ⟨p, pools.elderly, pools.rest⟩) :=
            (hperm.append_right pools.elderly).append_right pools.rest
          exact step.trans (hP.cons s)
        · intro hg
          rcases hg with hg | hg
          · omega
          · rcases hcond with ⟨hdis, _⟩
            rw [hg.1] at hdis
            simp at hdis
    · -- not the disabled-priority branch
      rename_i hc1
      split at h
      · -- elderly-priority branch
        rename_i hcond
        split at h
        · simp at h
        · rename_i s p heq
          obtain ⟨hmem, hsub, hperm⟩ := select_random_slot_ok heq
          obtain ⟨newly', hout, hlen, hP, hd, he, hr, hguard⟩ :=
            ih (acc ++ [s]) ⟨pools.disabled, p, pools.rest⟩ rng.tail out ps rg h
          refine ⟨s :: newly', by simp [hout], by simp [hlen], ?_, hd,
            he.trans hsub, hr, ?_⟩
          · have step : (poolsList pools).Perm
                (s :: poolsList ⟨pools.disabled, p, pools.rest⟩) := by
              have h1 : (pools.disabled ++ pools.elderly).Perm
                  (pools.disabled ++ s :: p) := hperm.append_left pools.disabled
              have h2 := h1.append_right pools.rest
              refine h2.trans ?_
              have h3 : (pools.disabled ++ s :: p ++ pools.rest) =
                  pools.disabled ++ s :: (p ++ pools.rest) := by simp
              rw [h3]
              have h4 : (pools.disabled ++ s :: (p ++ pools.rest)).Perm
                  (s :: (pools.disabled ++ (p ++ pools.rest))) := List.perm_middle
              have h5 : pools.disabled ++ (p ++ pools.rest) =
                  poolsList ⟨pools.disabled, p, pools.rest⟩ := by
                simp [poolsList]
              rw [h5] at h4
              exact h4
            exact step.trans (hP.cons s)
          · intro hg
            rcases hg with hg | hg
            · omega
            · rcases hcond with ⟨held, hdef, _⟩
              rcases hg.2 with h2 | h2
              · rw [h2] at held; simp at held
              · exact absurd h2 hdef
      · -- rest branch
        rename_i hc2
        split at h
        · simp at h
        · rename_i s p heq
          obtain ⟨hmem, hsub, hperm⟩ := select_random_slot_ok heq
          obtain ⟨newly', hout, hlen, hP, hd, he, hr, hguard⟩ :=
            ih (acc ++ [s]) ⟨pools.disabled, pools.elderly, p⟩ rng.tail out ps rg h
          have hacc : 1 ≤ (acc ++ [s]).length := by simp
          obtain ⟨hnewmem, hdeq, heeq⟩ := hguard (Or.inl hacc)
          refine ⟨s :: newly', by simp [hout], by simp [hlen], ?_, by rw [hdeq],
            by rw [heeq], hr.trans hsub, ?_⟩
          · have step : (poolsList pools).Perm
                (s :: poolsList ⟨pools.disabled, pools.elderly, p⟩) := by
              have h1 : ((pools.disabled ++ pools.elderly) ++ pools.rest).Perm
                  ((pools.disabled ++ pools.elderly) ++ (s :: p)) :=
                hperm.append_left (pools.disabled ++ pools.elderly)
              refine h1.trans ?_
              exact List.perm_middle
            exact step.trans (hP.cons s)
          · intro _
            refine ⟨?_, by rw [hdeq], by rw [heeq]⟩
            intro x hx
            rcases List.mem_cons.mp hx with hx | hx
            · rw [hx]; exact hmem
            · exact List.Sublist.mem (hnewmem x hx) hsub

/-- Starting from an empty accumulator, every id after the first one a
resident receives was drawn from the rest pool. -/
theorem allocUnits_tail_rest (res : Resident) (n : Nat) (pools : RafflePools)
    (rng : List Nat) (out : List String) (ps : RafflePools) (rg : List Nat)
    (h : allocUnits res n [] pools rng = .ok (out, ps, rg)) :
    ∀ x ∈ out.tail, x ∈ pools.rest := by
  cases n with
  | zero =>
    simp only [allocUnits, Except.ok.injEq, Prod.mk.injEq] at h
    obtain ⟨h1, _, _⟩ := h
    subst h1
    simp
  | succ n =>
    simp only [allocUnits] at h
    split at h
    · split at h
      · simp at h
      · rename_i s p heq
        obtain ⟨newly', hout, _, _, _, _, _, hguard⟩ :=
          allocUnits_spec res n ([] ++ [s]) ⟨p, pools.elderly, pools.rest⟩
            rng.tail out ps rg h
        obtain ⟨hnewmem, _, _⟩ := hguard (Or.inl (by simp))
        subst hout
        intro x hx
        exact hnewmem x (by simpa using hx)
    · split at h
      · split at h
        · simp at h
        · rename_i s p heq
          obtain ⟨newly', hout, _, _, _, _, _, hguard⟩ :=
            allocUnits_spec res n ([] ++ [s]) ⟨pools.disabled, p, pools.rest⟩
              rng.tail out ps rg h
          obtain ⟨hnewmem, _, _⟩ := hguard (Or.inl (by simp))
          subst hout
          intro x hx
          exact hnewmem x (by simpa using hx)
      · split at h
        · simp at h
        · rename_i s p heq
          obtain ⟨_, hsub, _⟩ := select_random_slot_ok heq
          obtain ⟨newly', hout, _, _, _, _, _, hguard⟩ :=
            allocUnits_spec res n ([] ++ [s]) ⟨pools.disabled, pools.elderly, p⟩
              rng.tail out ps rg h
          obtain ⟨hnewmem, _, _⟩ := hguard (Or.inl (by simp))
          subst hout
          intro x hx
          exact List.Sublist.mem (hnewmem x (by simpa using hx)) hsub

/-- Master invariant of the outer loop of `do_raffle`: on success the ids
assigned plus the leftover pools are a permutation of the entry pools, and the
output rows match the residents one to one with the properties needed by the
claims. -/
theorem do_raffle_aux_spec :
    ∀ (residents : List Resident) (pools : RafflePools) (rng : List Nat)
      (out : List (String × List String)) (ps : RafflePools) (rg : List Nat),
      do_raffle_aux residents pools rng = .ok (out, ps, rg) →
      (poolsList pools).Perm (all_assigned out ++ poolsList ps) ∧
      List.Forall₂ (fun (r : Resident) (pr : String × List String) =>
          pr.1 = r.id ∧ pr.2.length = r.slots ∧
          (∀ x ∈ pr.2.tail, x ∈ pools.rest) ∧
          ((r.disabled = false ∧ (r.elderly = false ∨ r.defaulting = true)) →
            ∀ x ∈ pr.2, x ∈ pools.rest))
        residents out := by
  intro residents
  induction residents with
  | nil =>
    intro pools rng out ps rg h
    simp only [do_raffle_aux, Except.ok.injEq, Prod.mk.injEq] at h
    obtain ⟨h1, h2, _⟩ := h
    subst h1; subst h2
    exact ⟨by simp [all_assigned], List.Forall₂.nil⟩
  | cons r rs ih =>
    intro pools rng out ps rg h
    simp only [do_raffle_aux] at h
    split at h
    · simp at h
    · rename_i assigned pools' rng' heq
      split at h
      · simp at h
      · rename_i out' pools'' rng'' heq2
        simp only [Except.ok.injEq, Prod.mk.injEq] at h
        obtain ⟨h1, h2, _⟩ := h
        subst h1; subst h2
        obtain ⟨newly, hout, hlen, hP, hd, he, hr, hguard⟩ :=
          allocUnits_spec r r.slots [] pools rng assigned pools' rng' heq
        have htail := allocUnits_tail_rest r r.slots pools rng assigned pools' rng' heq
        obtain ⟨ihP, ihF⟩ := ih pools' rng' out' pools'' rng'' heq2
        have hassigned : assigned = newly := by simpa using hout
        constructor
        · have hchain : (poolsList pools).Perm
              (assigned ++ (all_assigned out' ++ poolsList pools'')) := by
            rw [hassigned]
            exact hP.trans (ihP.append_left newly)
          have hform : all_assigned ((r.id, assigned) :: out') ++ poolsList pools'' =
              assigned ++ (all_assigned out' ++ poolsList pools'') := by
            simp [all_assigned]
          rw [hform]
          exact hchain
        · refine List.Forall₂.cons ⟨rfl, ?_, htail, ?_⟩ ?_
          · rw [hassigned]; exact hlen
          · intro hcond
            rw [hassigned]
            exact (hguard (Or.inr hcond)).1
          · refine ihF.imp ?_
            intro a b hb
            obtain ⟨hb1, hb2, hb3, hb4⟩ := hb
            refine ⟨hb1, hb2, ?_, ?_⟩
            · intro x hx
              exact List.Sublist.mem (hb3 x hx) hr
            · intro hcond x hx
              exact List.Sublist.mem (hb4 hcond x hx) hr

/-- Specification of a successful `do_raffle` run: the assigned ids are a
draw without replacement from the concatenated pools, and the output rows
match the resident list one to one. -/
theorem do_raffle_spec (residents : List Resident) (slots : List Slot)
    (rng : List Nat) (out : List (String × List String))
    (h : do_raffle residents slots rng = .ok out) :
    (all_assigned out).Subperm (poolsList (initPools slots)) ∧
    List.Forall₂ (fun (r : Resident) (pr : String × List String) =>
        pr.1 = r.id ∧ pr.2.length = r.slots ∧
        (∀ x ∈ pr.2.tail, x ∈ slots_rest slots) ∧
        ((r.disabled = false ∧ (r.elderly = false ∨ r.defaulting = true)) →
          ∀ x ∈ pr.2, x ∈ slots_rest slots))
      residents out := by
  unfold do_raffle at h
  split at h
  · simp at h
  · rename_i out' ps rg heq
    simp only [Except.ok.injEq] at h
    subst h
    obtain ⟨hP, hF⟩ := do_raffle_aux_spec residents (initPools slots) rng out' ps rg heq
    constructor
    · have h1 : (all_assigned out').Sublist (all_assigned out' ++ poolsList ps) :=
        List.sublist_append_left _ _
      exact h1.subperm.trans hP.symm.subperm
    · exact hF

/-- When no slot carries both flags, the three pools together are a
permutation of the slot ids (each record lands in exactly one pool). -/
theorem pools_partition (slots : List Slot)
    (hflags : ∀ s ∈ slots, ¬(s.disabled = true ∧ s.elderly = true)) :
    (slots_disabled slots ++ slots_elderly slots ++ slots_rest slots).Perm
      (slots.map Slot.id) := by
  induction slots with
  | nil => simp [slots_disabled, slots_elderly, slots_rest]
  | cons s t iht =>
    have hs := hflags s (by simp)
    have ih := iht (fun x hx => hflags x (by simp [hx]))
    cases hd : s.disabled with
    | true =>
      have he : s.elderly = false := by
        cases hse : s.elderly
        · rfl
        · exact absurd ⟨hd, hse⟩ hs
      have e1 : slots_disabled (s :: t) = s.id :: slots_disabled t := by
        simp [slots_disabled, List.filter_cons, hd]
      have e2 : slots_elderly (s :: t) = slots_elderly t := by
        simp [slots_elderly, List.filter_cons, he]
      have e3 : slots_rest (s :: t) = slots_rest t := by
        simp [slots_rest, List.filter_cons, hd]
      rw [e1, e2, e3, List.map_cons]
      exact ih.cons s.id
    | false =>
      cases he : s.elderly with
      | true =>
        have e1 : slots_disabled (s :: t) = slots_disabled t := by
          simp [slots_disabled, List.filter_cons, hd]
        have e2 : slots_elderly (s :: t) = s.id :: slots_elderly t := by
          simp [slots_elderly, List.filter_cons, he]
        have e3 : slots_rest (s :: t) = slots_rest t := by
          simp [slots_rest, List.filter_cons, he]
        rw [e1, e2, e3, List.map_cons]
        have h1 : slots_disabled t ++ (s.id :: slots_elderly t) ++ slots_rest t =
            slots_disabled t ++ s.id :: (slots_elderly t ++ slots_rest t) := by
          simp
        rw [h1]
        have ih' : (slots_disabled t ++ (slots_elderly t ++ slots_rest t)).Perm
            (t.map Slot.id) := by
          rw [← List.append_assoc]
          exact ih
        exact List.perm_middle.trans (ih'.cons s.id)
      | false =>
        have e1 : slots_disabled (s :: t) = slots_disabled t := by
          simp [slots_disabled, List.filter_cons, hd]
        have e2 : slots_elderly (s :: t) = slots_elderly t := by
          simp [slots_elderly, List.filter_cons, he]
        have e3 : slots_rest (s :: t) = s.id :: slots_rest t := by
          simp [slots_rest, List.filter_cons, hd, he]
        rw [e1, e2, e3, List.map_cons]
        exact List.perm_middle.trans (ih.cons s.id)

/-- With unique slot ids, an id of the rest pool is never an id of the
disabled pool. -/
theorem not_mem_disabled_of_mem_rest (slots : List Slot)
    (hids : (slots.map Slot.id).Nodup) :
    ∀ x ∈ slots_rest slots, x ∉ slots_disabled slots := by
  intro x hxr hxd
  simp only [slots_rest, List.mem_map, List.mem_filter] at hxr
  simp only [slots_disabled, List.mem_map, List.mem_filter] at hxd
  obtain ⟨s1, ⟨hs1m, hs1p⟩, hs1id⟩ := hxr
  obtain ⟨s2, ⟨hs2m, hs2p⟩, hs2id⟩ := hxd
  have heq : s1 = s2 :=
    List.inj_on_of_nodup_map hids hs1m hs2m (by rw [hs1id, hs2id])
  subst heq
  rw [hs2p] at hs1p
  simp at hs1p

/-- C1 counterexample: a valid input (one resident entitled to two slots,
`slots >= 1`, and at least as many slot records as resident records) on which
`do_raffle` aborts with rest-pool exhaustion instead of terminating
successfully. -/
theorem C1_counterexample :
    (∀ r ∈ ([⟨"A", 2, false, false, false⟩] : List Resident), 1 ≤ r.slots) ∧
    ([⟨"A", 2, false, false, false⟩] : List Resident).length ≤
      ([⟨"S1", false, false⟩] : List Slot).length ∧
    do_raffle [⟨"A", 2, false, false, false⟩] [⟨"S1", false, false⟩] [] =
      .error (.noMoreSlots "regular") :=
  ⟨by decide, by decide, by rfl⟩

/-- C1 (amended): whenever `do_raffle` terminates successfully, the output
rows correspond one to one with the residents and every resident receives a
sequence whose length is exactly their `slots` field.  (A total slot count at
least the resident count does not by itself guarantee successful
termination.) -/
theorem C1_success_lengths (residents : List Resident) (slots : List Slot)
    (rng : List Nat) (out : List (String × List String))
    (h : do_raffle residents slots rng = .ok out) :
    List.Forall₂ (fun (r : Resident) (pr : String × List String) =>
      pr.1 = r.id ∧ pr.2.length = r.slots) residents out :=
  ((do_raffle_spec residents slots rng out h).2).imp
    (fun _ _ hb => ⟨hb.1, hb.2.1⟩)

/-- Witness for C1 (amended) at a concrete successful run. -/
theorem C1_witness :
    do_raffle [⟨"A", 1, false, false, false⟩] [⟨"S1", false, false⟩] [] =
      .ok [("A", ["S1"])] ∧
    List.Forall₂ (fun (r : Resident) (pr : String × List String) =>
      pr.1 = r.id ∧ pr.2.length = r.slots)
      [⟨"A", 1, false, false, false⟩] [("A", ["S1"])] :=
  ⟨by rfl, C1_success_lengths [⟨"A", 1, false, false, false⟩]
    [⟨"S1", false, false⟩] [] [("A", ["S1"])] (by rfl)⟩

/-- C2 counterexample: a slot flagged both disabled and elderly enters both
priority pools, and a successful run assigns its id twice. -/
theorem C2_counterexample :
    do_raffle [⟨"R1", 1, true, false, false⟩, ⟨"R2", 1, false, true, false⟩]
      [⟨"S1", true, true⟩, ⟨"S2", false, false⟩] [] =
      .ok [("R1", ["S1"]), ("R2", ["S1"])] ∧
    ¬ (all_assigned [("R1", ["S1"]), ("R2", ["S1"])]).Nodup :=
  ⟨by rfl, by decide⟩

/-- C2 (amended): in every successful run over a slot table with unique ids
in which no slot carries both flags, the assigned ids have no duplicates and
are drawn from the input slot ids. -/
theorem C2_no_duplicates (residents : List Resident) (slots : List Slot)
    (rng : List Nat) (out : List (String × List String))
    (hids : (slots.map Slot.id).Nodup)
    (hflags : ∀ s ∈ slots, ¬(s.disabled = true ∧ s.elderly = true))
    (h : do_raffle residents slots rng = .ok out) :
    (all_assigned out).Nodup ∧ ∀ x ∈ all_assigned out, x ∈ slots.map Slot.id := by
  obtain ⟨hsp, _⟩ := do_raffle_spec residents slots rng out h
  have hpools : (poolsList (initPools slots)).Perm (slots.map Slot.id) :=
    pools_partition slots hflags
  have hnd : (poolsList (initPools slots)).Nodup := (hpools.nodup_iff).mpr hids
  obtain ⟨l, hlperm, hlsub⟩ := hsp
  constructor
  · exact (hlperm.nodup_iff).mp (hnd.sublist hlsub)
  · intro x hx
    have hxl : x ∈ l := (hlperm.mem_iff).mpr hx
    exact hpools.subset (List.Sublist.mem hxl hlsub)

/-- Witness for C2 (amended) at a concrete successful run. -/
theorem C2_witness :
    ((([⟨"S1", true, false⟩, ⟨"S2", false, false⟩] : List Slot).map Slot.id).Nodup ∧
      ∀ s ∈ ([⟨"S1", true, false⟩, ⟨"S2", false, false⟩] : List Slot),
        ¬(s.disabled = true ∧ s.elderly = true)) ∧
    (all_assigned [("A", ["S1"])]).Nodup ∧
    ∀ x ∈ all_assigned [("A", ["S1"])],
      x ∈ ([⟨"S1", true, false⟩, ⟨"S2", false, false⟩] : List Slot).map Slot.id :=
  ⟨⟨by decide, by decide⟩,
    C2_no_duplicates [⟨"A", 1, true, false, false⟩]
      [⟨"S1", true, false⟩, ⟨"S2", false, false⟩] [] [("A", ["S1"])]
      (by decide) (by decide) (by rfl)⟩

/-- C3: in a successful run over a slot table with unique ids, every unit
after the first in a resident's sequence comes from the rest pool, and no
resident (in particular no disabled resident) receives more than one id from
the disabled pool. -/
theorem C3_priority_only_first (residents : List Resident) (slots : List Slot)
    (rng : List Nat) (out : List (String × List String))
    (hids : (slots.map Slot.id).Nodup)
    (h : do_raffle residents slots rng = .ok out) :
    List.Forall₂ (fun (_ : Resident) (pr : String × List String) =>
      (∀ x ∈ pr.2.tail, x ∈ slots_rest slots) ∧
      pr.2.countP (fun x => decide (x ∈ slots_disabled slots)) ≤ 1)
      residents out := by
  have hdisj := not_mem_disabled_of_mem_rest slots hids
  refine ((do_raffle_spec residents slots rng out h).2).imp ?_
  intro a b hb
  obtain ⟨_, _, htail, _⟩ := hb
  refine ⟨htail, ?_⟩
  rcases hl : b.2 with _ | ⟨y, ys⟩
  · simp
  · rw [List.countP_cons]
    have h0 : ys.countP (fun x => decide (x ∈ slots_disabled slots)) = 0 := by
      refine List.countP_eq_zero.mpr ?_
      intro a2 ha2
      have : a2 ∈ slots_rest slots := htail a2 (by rw [hl]; simpa using ha2)
      simpa using hdisj a2 this
    rw [h0]
    split <;> simp

/-- Witness for C3 at a concrete run: a disabled resident entitled to two
slots receives one disabled-pool slot and one rest-pool slot. -/
theorem C3_witness :
    ((([⟨"S1", true, false⟩, ⟨"S2", false, false⟩] : List Slot).map Slot.id).Nodup) ∧
    List.Forall₂ (fun (_ : Resident) (pr : String × List String) =>
      (∀ x ∈ pr.2.tail,
        x ∈ slots_rest [⟨"S1", true, false⟩, ⟨"S2", false, false⟩]) ∧
      pr.2.countP
        (fun x => decide
          (x ∈ slots_disabled [⟨"S1", true, false⟩, ⟨"S2", false, false⟩])) ≤ 1)
      [⟨"A", 2, true, false, false⟩] [("A", ["S1", "S2"])] :=
  ⟨by decide, C3_priority_only_first [⟨"A", 2, true, false, false⟩]
    [⟨"S1", true, false⟩, ⟨"S2", false, false⟩] [] [("A", ["S1", "S2"])]
    (by decide) (by rfl)⟩

/-- C4 counterexample: a slot with both flags set lands in both the disabled
and the elderly pool, so the pools are not pairwise disjoint and a record can
land in two pools. -/
theorem C4_counterexample :
    "S1" ∈ slots_disabled [⟨"S1", true, true⟩] ∧
    "S1" ∈ slots_elderly [⟨"S1", true, true⟩] ∧
    ¬ (∀ x ∈ slots_disabled [(⟨"S1", true, true⟩ : Slot)],
        x ∉ slots_elderly [(⟨"S1", true, true⟩ : Slot)]) := by
  refine ⟨by decide, by decide, by decide⟩

/-- C4 (amended): provided no slot carries both flags, every slot record
lands in exactly one pool (the concatenated pools are a permutation of the
slot ids), and, when the slot ids are unique, the three pools are pairwise
disjoint. -/
theorem C4_pools_disjoint_cover (slots : List Slot)
    (hflags : ∀ s ∈ slots, ¬(s.disabled = true ∧ s.elderly = true)) :
    (slots_disabled slots ++ slots_elderly slots ++ slots_rest slots).Perm
      (slots.map Slot.id) ∧
    ((slots.map Slot.id).Nodup →
      (slots_disabled slots).Disjoint (slots_elderly slots) ∧
      (slots_disabled slots).Disjoint (slots_rest slots) ∧
      (slots_elderly slots).Disjoint (slots_rest slots)) := by
  refine ⟨pools_partition slots hflags, ?_⟩
  intro hids
  have hnd : (slots_disabled slots ++ slots_elderly slots ++
      slots_rest slots).Nodup :=
    ((pools_partition slots hflags).nodup_iff).mpr hids
  rw [List.nodup_append, List.nodup_append, List.disjoint_append_left] at hnd
  obtain ⟨⟨_, _, hde⟩, _, hdr, her⟩ := hnd
  exact ⟨hde, hdr, her⟩

/-- Witness for C4 (amended) at a concrete slot table. -/
theorem C4_witness :
    (∀ s ∈ ([⟨"S1", true, false⟩, ⟨"S2", false, true⟩, ⟨"S3", false, false⟩] :
        List Slot), ¬(s.disabled = true ∧ s.elderly = true)) ∧
    ((slots_disabled [⟨"S1", true, false⟩, ⟨"S2", false, true⟩, ⟨"S3", false, false⟩] ++
        slots_elderly [⟨"S1", true, false⟩, ⟨"S2", false, true⟩, ⟨"S3", false, false⟩] ++
        slots_rest [⟨"S1", true, false⟩, ⟨"S2", false, true⟩, ⟨"S3", false, false⟩]).Perm
      (([⟨"S1", true, false⟩, ⟨"S2", false, true⟩, ⟨"S3", false, false⟩] :
        List Slot).map Slot.id) ∧
    ((([⟨"S1", true, false⟩, ⟨"S2", false, true⟩, ⟨"S3", false, false⟩] :
        List Slot).map Slot.id).Nodup →
      (slots_disabled [⟨"S1", true, false⟩, ⟨"S2", false, true⟩, ⟨"S3", false, false⟩]).Disjoint
        (slots_elderly [⟨"S1", true, false⟩, ⟨"S2", false, true⟩, ⟨"S3", false, false⟩]) ∧
      (slots_disabled [⟨"S1", true, false⟩, ⟨"S2", false, true⟩, ⟨"S3", false, false⟩]).Disjoint
        (slots_rest [⟨"S1", true, false⟩, ⟨"S2", false, true⟩, ⟨"S3", false, false⟩]) ∧
      (slots_elderly [⟨"S1", true, false⟩, ⟨"S2", false, true⟩, ⟨"S3", false, false⟩]).Disjoint
        (slots_rest [⟨"S1", true, false⟩, ⟨"S2", false, true⟩, ⟨"S3", false, false⟩]))) :=
  ⟨by decide, C4_pools_disjoint_cover
    [⟨"S1", true, false⟩, ⟨"S2", false, true⟩, ⟨"S3", false, false⟩] (by decide)⟩

/-- C5: an elderly, defaulting, non-disabled resident never draws from the
elderly pool: every id they receive is drawn from the rest pool. -/
theorem C5_defaulting_elderly_rest_only (residents : List Resident)
    (slots : List Slot) (rng : List Nat) (out : List (String × List String))
    (h : do_raffle residents slots rng = .ok out) :
    List.Forall₂ (fun (r : Resident) (pr : String × List String) =>
      (r.elderly = true ∧ r.defaulting = true ∧ r.disabled = false) →
        ∀ x ∈ pr.2, x ∈ slots_rest slots) residents out :=
  ((do_raffle_spec residents slots rng out h).2).imp
    (fun _ _ hb hcond => hb.2.2.2 ⟨hcond.2.2, Or.inr hcond.2.1⟩)

/-- Witness for C5 at a concrete run: the elderly defaulting resident gets
the rest slot, not the elderly slot. -/
theorem C5_witness :
    do_raffle [⟨"A", 1, false, true, true⟩]
      [⟨"S1", false, true⟩, ⟨"S2", false, false⟩] [] = .ok [("A", ["S2"])] ∧
    List.Forall₂ (fun (r : Resident) (pr : String × List String) =>
      (r.elderly = true ∧ r.defaulting = true ∧ r.disabled = false) →
        ∀ x ∈ pr.2, x ∈ slots_rest [⟨"S1", false, true⟩, ⟨"S2", false, false⟩])
      [⟨"A", 1, false, true, true⟩] [("A", ["S2"])] :=
  ⟨by rfl, C5_defaulting_elderly_rest_only [⟨"A", 1, false, true, true⟩]
    [⟨"S1", false, true⟩, ⟨"S2", false, false⟩] [] [("A", ["S2"])] (by rfl)⟩

/-- C9: a resident that satisfies no priority branch (not disabled, and not
elderly-non-defaulting) only ever receives ids of slots with both flags
false. -/
theorem C9_plain_resident_rest_only (residents : List Resident)
    (slots : List Slot) (rng : List Nat) (out : List (String × List String))
    (h : do_raffle residents slots rng = .ok out) :
    List.Forall₂ (fun (r : Resident) (pr : String × List String) =>
      (r.disabled = false ∧ (r.elderly = false ∨ r.defaulting = true)) →
        ∀ x ∈ pr.2, ∃ s ∈ slots, s.id = x ∧ s.disabled = false ∧
          s.elderly = false) residents out := by
  refine ((do_raffle_spec residents slots rng out h).2).imp ?_
  intro a b hb hcond x hx
  have hxr := hb.2.2.2 hcond x hx
  simp only [slots_rest, List.mem_map, List.mem_filter] at hxr
  obtain ⟨s, ⟨hsm, hsp⟩, hsid⟩ := hxr
  have hsp' : s.disabled = false ∧ s.elderly = false := by
    simpa using hsp
  exact ⟨s, hsm, hsid, hsp'.1, hsp'.2⟩

/-- Witness for C9 at a concrete run. -/
theorem C9_witness :
    do_raffle [⟨"A", 1, false, false, false⟩]
      [⟨"S1", true, false⟩, ⟨"S2", false, false⟩] [] = .ok [("A", ["S2"])] ∧
    List.Forall₂ (fun (r : Resident) (pr : String × List String) =>
      (r.disabled = false ∧ (r.elderly = false ∨ r.defaulting = true)) →
        ∀ x ∈ pr.2, ∃ s ∈ ([⟨"S1", true, false⟩, ⟨"S2", false, false⟩] : List Slot),
          s.id = x ∧ s.disabled = false ∧ s.elderly = false)
      [⟨"A", 1, false, false, false⟩] [("A", ["S2"])] :=
  ⟨by rfl, C9_plain_resident_rest_only [⟨"A", 1, false, false, false⟩]
    [⟨"S1", true, false⟩, ⟨"S2", false, false⟩] [] [("A", ["S2"])] (by rfl)⟩

/-- C6: `select_random_slot` aborts, with an error naming the requested
category, exactly when the pool is empty; on a nonempty pool it removes and
returns the element at the random index `r % pool.length`, which lies in
`[0, pool.length)`, and the pool shrinks by exactly one element. -/
theorem C6_select_random_slot_spec (pool : List String) (r : Nat)
    (category : String) :
    (pool = [] →
      select_random_slot pool r category = .error (.noMoreSlots category)) ∧
    ((∃ e, select_random_slot pool r category = .error e) → pool = []) ∧
    (pool ≠ [] → ∃ s p, select_random_slot pool r category = .ok (s, p) ∧
      s ∈ pool ∧ p = pool.eraseIdx (r % pool.length) ∧
      r % pool.length < pool.length ∧ p.length + 1 = pool.length ∧
      pool.Perm (s :: p)) := by
  refine ⟨?_, ?_, ?_⟩
  · intro hnil
    subst hnil
    rfl
  · rintro ⟨e, he⟩
    by_contra hne
    have hpos : 0 < pool.length := List.length_pos.mpr hne
    unfold select_random_slot at he
    rw [dif_neg (by omega)] at he
    simp at he
  · intro hne
    have hpos : 0 < pool.length := List.length_pos.mpr hne
    have hidx : r % pool.length < pool.length := Nat.mod_lt r hpos
    refine ⟨pool.get ⟨r % pool.length, hidx⟩, pool.eraseIdx (r % pool.length),
      ?_, List.get_mem _ _ _, rfl, hidx, ?_, ?_⟩
    · unfold select_random_slot
      rw [dif_neg (by omega)]
    · have := (perm_get_cons_eraseIdx pool (r % pool.length) hidx).length_eq
      simp at this
      omega
    · exact perm_get_cons_eraseIdx pool (r % pool.length) hidx

/-- Witness for C6: the empty-pool abort and a concrete nonempty draw. -/
theorem C6_witness :
    select_random_slot [] 0 "elderly" = .error (.noMoreSlots "elderly") ∧
    (∃ s p, select_random_slot ["a", "b"] 3 "regular" = .ok (s, p) ∧
      s ∈ ["a", "b"] ∧ p = ["a", "b"].eraseIdx (3 % 2) ∧ 3 % 2 < 2 ∧
      p.length + 1 = 2 ∧ (["a", "b"] : List String).Perm (s :: p)) :=
  ⟨(C6_select_random_slot_spec [] 0 "elderly").1 rfl,
    (C6_select_random_slot_spec ["a", "b"] 3 "regular").2.2 (by decide)⟩

/-- A raw row of the residents file as produced by `csv.DictReader` with the
`RESIDENTS_FIELDS` schema; a missing trailing field is `none`. -/
structure RawResidentRow where
  id : Option String
  slots : Option String
  disabled : Option String
  elderly : Option String
  defaulting : Option String
  deriving DecidableEq

/-- A raw row of the slots file with the `SLOTS_FIELDS` schema. -/
structure RawSlotRow where
  id : Option String
  disabled : Option String
  elderly : Option String
  deriving DecidableEq

/-- The `value is None` presence check performed per field by
`format_resident` and `format_slots`. -/
def requireValue (index : Nat) (key : String) :
    Option String → Except RaffleError String
  | none => .error (.fieldMissing key (index + 1))
  | some v => .ok v

/-- Embeds `format_id`: strip surrounding whitespace, abort when the result
is empty. -/
def format_id (index : Nat) (key : String) (value : String) :
    Except RaffleError String :=
  let v := strip value
  if v.length ≤ 0 then .error (.fieldEmpty key (index + 1)) else .ok v

/-- Embeds `format_integer`: parse an integer, abort when unparsable or less
than 1. -/
def format_integer (index : Nat) (key : String) (value : String) :
    Except RaffleError Nat :=
  match parse_int value with
  | none => .error (.notInteger key (index + 1))
  | some n => if n < 1 then .error (.lessThanOne key (index + 1)) else .ok n.toNat

/-- Embeds `format_bool`: case-insensitive match of the literals true and
false, abort otherwise. -/
def format_bool (index : Nat) (key : String) (value : String) :
    Except RaffleError Bool :=
  let v := lower value
  if v = "true" then .ok true
  else if v = "false" then .ok false
  else .error (.badBool key (index + 1))

/-- Embeds `format_resident`: per-field presence check and formatting, in the
field order `id, slots, disabled, elderly, defaulting` of the row dict. -/
def format_resident (index : Nat) (row : RawResidentRow) :
    Except RaffleError Resident := do
  let rawId ← requireValue index "id" row.id
  let idv ← format_id index "id" rawId
  let rawSlots ← requireValue index "slots" row.slots
  let slotsv ← format_integer index "slots" rawSlots
  let rawDis ← requireValue index "disabled" row.disabled
  let disv ← format_bool index "disabled" rawDis
  let rawEld ← requireValue index "elderly" row.elderly
  let eldv ← format_bool index "elderly" rawEld
  let rawDef ← requireValue index "defaulting" row.defaulting
  let defv ← format_bool index "defaulting" rawDef
  return ⟨idv, slotsv, disv, eldv, defv⟩

/-- Embeds `format_slots`: per-field presence check and formatting, in the
field order `id, disabled, elderly`. -/
def format_slots (index : Nat) (row : RawSlotRow) :
    Except RaffleError Slot := do
  let rawId ← requireValue index "id" row.id
  let idv ← format_id index "id" rawId
  let rawDis ← requireValue index "disabled" row.disabled
  let disv ← format_bool index "disabled" rawDis
  let rawEld ← requireValue index "elderly" row.elderly
  let eldv ← format_bool index "elderly" rawEld
  return ⟨idv, disv, eldv⟩

/-- The loop of `parse_file`: format each row (which rewrites the id field to
its trimmed form), then check the formatted id against the ids parsed so far
and abort on a duplicate; `index` is the running `enumerate` counter and
`parsed` the dict built so far, kept in insertion order. -/
def parse_file_aux {α β : Type} (format_function : Nat → α → Except RaffleError β)
    (id_of : β → String) :
    List α → Nat → List (String × β) → Except RaffleError (List (String × β))
  | [], _, parsed => .ok parsed
  | row :: rows, index, parsed =>
    match format_function index row with
    | .error e => .error e
    | .ok record =>
      let idValue := id_of record
      if idValue ∈ parsed.map Prod.fst then
        .error (.duplicateId idValue (index + 1))
      else
        parse_file_aux format_function id_of rows (index + 1)
          (parsed ++ [(idValue, record)])

/-- Embeds `parse_file(file_name, fieldnames, delimiter, format_function,
id_key)` on the list of raw rows read from the file. -/
def parse_file {α β : Type} (rows : List α)
    (format_function : Nat → α → Except RaffleError β) (id_of : β → String) :
    Except RaffleError (List (String × β)) :=
  parse_file_aux format_function id_of rows 0 []

/-- One extraction pass of the shuffle model: take the element at an
rng-chosen index, then recurse on the remainder. -/
def draw_shuffle {α : Type} : Nat → List α → List Nat → List α
  | 0, _, _ => []
  | n + 1, l, rng =>
    match l.get? (rng.headD 0 % l.length) with
    | none => []
    | some x => x :: draw_shuffle n (l.eraseIdx (rng.headD 0 % l.length)) rng.tail

/-- Model of Python `random.shuffle`: an rng-driven draw-without-replacement
permutation of the list. -/
def shuffle {α : Type} (l : List α) (rng : List Nat) : List α :=
  draw_shuffle l.length l rng

/-- The shuffle model returns a permutation of its input. -/
theorem draw_shuffle_perm {α : Type} :
    ∀ (n : Nat) (l : List α) (rng : List Nat), l.length = n →
      (draw_shuffle n l rng).Perm l
  | 0, l, _, h => by
    have hl : l = [] := List.length_eq_zero.mp h
    subst hl
    simp [draw_shuffle]
  | n + 1, l, rng, h => by
    have hpos : 0 < l.length := by omega
    have hidx : rng.headD 0 % l.length < l.length := Nat.mod_lt _ hpos
    have hget : l.get? (rng.headD 0 % l.length) =
        some (l.get ⟨rng.headD 0 % l.length, hidx⟩) := List.get?_eq_get hidx
    simp only [draw_shuffle, hget]
    have hlen : (l.eraseIdx (rng.headD 0 % l.length)).length = n := by
      have := (perm_get_cons_eraseIdx l (rng.headD 0 % l.length) hidx).length_eq
      rw [List.length_cons] at this
      omega
    have ih := draw_shuffle_perm n (l.eraseIdx (rng.headD 0 % l.length))
      rng.tail hlen
    exact (ih.cons _).trans (perm_get_cons_eraseIdx l _ hidx).symm

/-- The shuffled list is a permutation of the original. -/
theorem shuffle_perm {α : Type} (l : List α) (rng : List Nat) :
    (shuffle l rng).Perm l :=
  draw_shuffle_perm l.length l rng rfl

/-- Embeds `read_input` after the file-existence checks (which concern the
filesystem and are outside this model): parse both files, abort with the
count-mismatch message when there are fewer slot records than resident
records, otherwise shuffle the residents and return both tables. -/
def read_input (residentRows : List RawResidentRow) (slotRows : List RawSlotRow)
    (rng : List Nat) :
    Except RaffleError (List (String × Resident) × List (String × Slot)) := do
  let residents ← parse_file residentRows format_resident Resident.id
  let slots ← parse_file slotRows format_slots Slot.id
  if slots.length < residents.length then
    .error .countMismatch
  else
    return (shuffle residents rng, slots)

/-- Embeds `write_output`: one row per resident, the resident id followed by
the assigned slot ids. -/
def write_output (output : List (String × List String)) : List (List String) :=
  output.map (fun p => p.1 :: p.2)

/-- Embeds `main` after flag parsing: read and validate the input, run the
raffle, and only then produce the output rows.  An error anywhere stops the
pipeline with no output. -/
def main_run (residentRows : List RawResidentRow) (slotRows : List RawSlotRow)
    (shuffleRng raffleRng : List Nat) :
    Except RaffleError (List (List String)) := do
  let (residents, slots) ← read_input residentRows slotRows shuffleRng
  let output ← do_raffle (residents.map Prod.snd) (slots.map Prod.snd) raffleRng
  return write_output output

/-- Destructuring a successful Except bind. -/
theorem except_bind_ok {ε α β : Type} {e : Except ε α} {f : α → Except ε β}
    {b : β} (h : e >>= f = .ok b) : ∃ a, e = .ok a ∧ f a = .ok b := by
  cases e with
  | error x =>
    simp only [Bind.bind, Except.bind] at h
    exact absurd h (by simp)
  | ok a =>
    refine ⟨a, rfl, ?_⟩
    simpa only [Bind.bind, Except.bind] using h

/-- C7: output rows exist only for a fully successful pipeline: a run of
`main_run` that produces rows went through a successful `read_input` and a
successful `do_raffle`, the rows are exactly `write_output` of that raffle,
and every resident received exactly their `slots` count of ids.  A failing
run is an `Except.error`, which carries no output. -/
theorem C7_output_only_on_success (residentRows : List RawResidentRow)
    (slotRows : List RawSlotRow) (shuffleRng raffleRng : List Nat)
    (rows : List (List String))
    (h : main_run residentRows slotRows shuffleRng raffleRng = .ok rows) :
    ∃ residents slots out,
      read_input residentRows slotRows shuffleRng = .ok (residents, slots) ∧
      do_raffle (residents.map Prod.snd) (slots.map Prod.snd) raffleRng =
        .ok out ∧
      rows = write_output out ∧
      List.Forall₂ (fun (r : Resident) (pr : String × List String) =>
        pr.1 = r.id ∧ pr.2.length = r.slots) (residents.map Prod.snd) out := by
  unfold main_run at h
  obtain ⟨rs, hri, h⟩ := except_bind_ok h
  obtain ⟨residents, slots⟩ := rs
  obtain ⟨out, hdr, h⟩ := except_bind_ok h
  simp only [pure, Except.pure, Except.ok.injEq] at h
  subst h
  refine ⟨residents, slots, out, hri, hdr, rfl, ?_⟩
  refine ((do_raffle_spec (residents.map Prod.snd) (slots.map Prod.snd)
      raffleRng out hdr).2).imp ?_
  intro a b hb
  exact ⟨hb.1, hb.2.1⟩

/-- Witness for C7 at a concrete end-to-end run. -/
theorem C7_witness :
    main_run [⟨some "A", some "1", some "false", some "false", some "false"⟩]
      [⟨some "S1", some "false", some "false"⟩] [] [] = .ok [["A", "S1"]] ∧
    (∃ residents slots out,
      read_input
        [⟨some "A", some "1", some "false", some "false", some "false"⟩]
        [⟨some "S1", some "false", some "false"⟩] [] = .ok (residents, slots) ∧
      do_raffle (residents.map Prod.snd) (slots.map Prod.snd) [] = .ok out ∧
      [["A", "S1"]] = write_output out ∧
      List.Forall₂ (fun (r : Resident) (pr : String × List String) =>
        pr.1 = r.id ∧ pr.2.length = r.slots) (residents.map Prod.snd) out) :=
  ⟨by rfl, C7_output_only_on_success
    [⟨some "A", some "1", some "false", some "false", some "false"⟩]
    [⟨some "S1", some "false", some "false"⟩] [] [] [["A", "S1"]] (by rfl)⟩

/-- C8: given that both files parse, `read_input` aborts with the
count-mismatch error exactly when there are strictly fewer slot records than
resident records; otherwise it returns the shuffled residents (a permutation
of the parsed residents) together with the slots table. -/
theorem C8_count_check (residentRows : List RawResidentRow)
    (slotRows : List RawSlotRow) (rng : List Nat)
    (residents : List (String × Resident)) (slots : List (String × Slot))
    (hres : parse_file residentRows format_resident Resident.id = .ok residents)
    (hslots : parse_file slotRows format_slots Slot.id = .ok slots) :
    (read_input residentRows slotRows rng = .error .countMismatch ↔
      slots.length < residents.length) ∧
    (residents.length ≤ slots.length →
      read_input residentRows slotRows rng =
        .ok (shuffle residents rng, slots) ∧
      (shuffle residents rng).Perm residents) := by
  have hread : read_input residentRows slotRows rng =
      (if slots.length < residents.length then .error .countMismatch
       else .ok (shuffle residents rng, slots)) := by
    unfold read_input
    rw [hres, hslots]
    rfl
  constructor
  · rw [hread]
    constructor
    · intro h
      by_contra hlt
      rw [if_neg hlt] at h
      exact absurd h (by simp)
    · intro hlt
      rw [if_pos hlt]
  · intro hle
    have hnlt : ¬ slots.length < residents.length := by omega
    rw [hread, if_neg hnlt]
    exact ⟨rfl, shuffle_perm residents rng⟩

/-- Witness for C8 at concrete parsed tables with equal counts. -/
theorem C8_witness :
    parse_file [⟨some "A", some "1", some "false", some "false", some "false"⟩]
        format_resident Resident.id =
      .ok [("A", ⟨"A", 1, false, false, false⟩)] ∧
    parse_file [⟨some "S1", some "false", some "false"⟩] format_slots Slot.id =
      .ok [("S1", ⟨"S1", false, false⟩)] ∧
    ((read_input [⟨some "A", some "1", some "false", some "false", some "false"⟩]
        [⟨some "S1", some "false", some "false"⟩] [] = .error .countMismatch ↔
      ([("S1", (⟨"S1", false, false⟩ : Slot))]).length <
        ([("A", (⟨"A", 1, false, false, false⟩ : Resident))]).length) ∧
    (([("A", (⟨"A", 1, false, false, false⟩ : Resident))]).length ≤
        ([("S1", (⟨"S1", false, false⟩ : Slot))]).length →
      read_input [⟨some "A", some "1", some "false", some "false", some "false"⟩]
        [⟨some "S1", some "false", some "false"⟩] [] =
        .ok (shuffle [("A", ⟨"A", 1, false, false, false⟩)] [],
          [("S1", ⟨"S1", false, false⟩)]) ∧
      (shuffle [("A", (⟨"A", 1, false, false, false⟩ : Resident))] []).Perm
        [("A", ⟨"A", 1, false, false, false⟩)])) :=
  ⟨by rfl, by rfl, C8_count_check
    [⟨some "A", some "1", some "false", some "false", some "false"⟩]
    [⟨some "S1", some "false", some "false"⟩] []
    [("A", ⟨"A", 1, false, false, false⟩)] [("S1", ⟨"S1", false, false⟩)]
    (by rfl) (by rfl)⟩

/-- A successful presence check means the field was present. -/
theorem requireValue_ok {index : Nat} {key : String} {o : Option String}
    {v : String} (h : requireValue index key o = .ok v) : o = some v := by
  cases o with
  | none => exact absurd h (by simp [requireValue])
  | some w =>
    simp only [requireValue, Except.ok.injEq] at h
    rw [h]

/-- A successful id format returns the trimmed raw value. -/
theorem format_id_ok {index : Nat} {key value v : String}
    (h : format_id index key value = .ok v) : v = strip value := by
  simp only [format_id] at h
  split at h
  · exact absurd h (by simp)
  · simp only [Except.ok.injEq] at h
    rw [h]

/-- A successfully formatted slot row carries the trimmed raw id. -/
theorem format_slots_ok_id {index : Nat} {row : RawSlotRow} {s : Slot}
    (h : format_slots index row = .ok s) :
    ∃ v, row.id = some v ∧ s.id = strip v := by
  unfold format_slots at h
  obtain ⟨rawId, h1, h⟩ := except_bind_ok h
  obtain ⟨idv, h2, h⟩ := except_bind_ok h
  obtain ⟨rawDis, _, h⟩ := except_bind_ok h
  obtain ⟨disv, _, h⟩ := except_bind_ok h
  obtain ⟨rawEld, _, h⟩ := except_bind_ok h
  obtain ⟨eldv, _, h⟩ := except_bind_ok h
  simp only [pure, Except.pure, Except.ok.injEq] at h
  refine ⟨rawId, requireValue_ok h1, ?_⟩
  rw [← h]
  exact format_id_ok h2

/-- A successfully formatted resident row carries the trimmed raw id. -/
theorem format_resident_ok_id {index : Nat} {row : RawResidentRow}
    {r : Resident} (h : format_resident index row = .ok r) :
    ∃ v, row.id = some v ∧ r.id = strip v := by
  unfold format_resident at h
  obtain ⟨rawId, h1, h⟩ := except_bind_ok h
  obtain ⟨idv, h2, h⟩ := except_bind_ok h
  obtain ⟨rawSlots, _, h⟩ := except_bind_ok h
  obtain ⟨slotsv, _, h⟩ := except_bind_ok h
  obtain ⟨rawDis, _, h⟩ := except_bind_ok h
  obtain ⟨disv, _, h⟩ := except_bind_ok h
  obtain ⟨rawEld, _, h⟩ := except_bind_ok h
  obtain ⟨eldv, _, h⟩ := except_bind_ok h
  obtain ⟨rawDef, _, h⟩ := except_bind_ok h
  obtain ⟨defv, _, h⟩ := except_bind_ok h
  simp only [pure, Except.pure, Except.ok.injEq] at h
  refine ⟨rawId, requireValue_ok h1, ?_⟩
  rw [← h]
  exact format_id_ok h2

/-- Dichotomy for `parse_file_aux` over rows that all format successfully,
for any row schema whose formatter stores the trimmed raw id (as both
`format_resident` and `format_slots` do): either parsing succeeds and its
keys are the previous keys followed by the trimmed raw ids of the rows (with
uniqueness preserved), or it aborts with a duplicate-id error. -/
theorem parse_file_aux_trim {α β : Type}
    (format_function : Nat → α → Except RaffleError β) (id_of : β → String)
    (raw_id : α → Option String)
    (hformat : ∀ (idx : Nat) (row : α) (s : β),
      format_function idx row = .ok s →
      ∃ v, raw_id row = some v ∧ id_of s = strip v)
    (rows : List α) :
    ∀ (idx : Nat) (parsed : List (String × β)),
      (∀ (k : Nat) (hk : k < rows.length),
        ∃ s, format_function (idx + k) (rows.get ⟨k, hk⟩) = .ok s) →
      (∃ res, parse_file_aux format_function id_of rows idx parsed = .ok res ∧
          res.map Prod.fst = parsed.map Prod.fst ++
            rows.map (fun row => strip ((raw_id row).getD "")) ∧
          ((parsed.map Prod.fst).Nodup → (res.map Prod.fst).Nodup)) ∨
      (∃ v n, parse_file_aux format_function id_of rows idx parsed =
          .error (.duplicateId v n)) := by
  induction rows with
  | nil =>
    intro idx parsed _
    exact Or.inl ⟨parsed, rfl, by simp, fun hp => hp⟩
  | cons row rows ih =>
    intro idx parsed hall
    obtain ⟨s0, hs0⟩ := hall 0 (by simp)
    have hs0' : format_function idx row = .ok s0 := by
      simpa using hs0
    obtain ⟨v, hv, hsid⟩ := hformat idx row s0 hs0'
    have hid : id_of s0 = strip ((raw_id row).getD "") := by
      rw [hsid, hv]
      rfl
    have hstep : parse_file_aux format_function id_of (row :: rows) idx parsed =
        (if id_of s0 ∈ parsed.map Prod.fst then
          .error (.duplicateId (id_of s0) (idx + 1))
        else parse_file_aux format_function id_of rows (idx + 1)
          (parsed ++ [(id_of s0, s0)])) := by
      simp [parse_file_aux, hs0']
    by_cases hmem : id_of s0 ∈ parsed.map Prod.fst
    · right
      exact ⟨id_of s0, idx + 1, by rw [hstep, if_pos hmem]⟩
    · have hall' : ∀ (k : Nat) (hk : k < rows.length),
          ∃ s, format_function (idx + 1 + k) (rows.get ⟨k, hk⟩) = .ok s := by
        intro k hk
        obtain ⟨s, hs⟩ := hall (k + 1) (by simpa using Nat.succ_lt_succ hk)
        refine ⟨s, ?_⟩
        have harith : idx + (k + 1) = idx + 1 + k := by omega
        rw [← harith]
        simpa using hs
      rcases ih (idx + 1) (parsed ++ [(id_of s0, s0)]) hall' with
        ⟨res, hres, hkeys, hnodup⟩ | ⟨v2, n2, herr⟩
      · left
        refine ⟨res, by rw [hstep, if_neg hmem]; exact hres, ?_, ?_⟩
        · rw [hkeys]
          simp [hid]
        · intro hpn
          refine hnodup ?_
          rw [List.map_append]
          refine List.Nodup.append hpn (by simp) ?_
          have hd1 : ([(id_of s0, s0)].map Prod.fst) = [id_of s0] := by simp
          rw [hd1]
          exact List.disjoint_singleton.mpr hmem
      · right
        exact ⟨v2, n2, by rw [hstep, if_neg hmem]; exact herr⟩

/-- For any row schema whose formatter stores the trimmed raw id: if all rows
format successfully and two rows have raw ids equal after trimming,
`parse_file` aborts with a duplicate-id error. -/
theorem parse_file_trim_duplicate {α β : Type}
    (format_function : Nat → α → Except RaffleError β) (id_of : β → String)
    (raw_id : α → Option String)
    (hformat : ∀ (idx : Nat) (row : α) (s : β),
      format_function idx row = .ok s →
      ∃ v, raw_id row = some v ∧ id_of s = strip v)
    (rows : List α) (i j : Nat) (hij : i < j) (hj : j < rows.length)
    (hall : ∀ (k : Nat) (hk : k < rows.length),
      ∃ s, format_function k (rows.get ⟨k, hk⟩) = .ok s)
    (vi vj : String)
    (hvi : raw_id (rows.get ⟨i, Nat.lt_trans hij hj⟩) = some vi)
    (hvj : raw_id (rows.get ⟨j, hj⟩) = some vj)
    (htrim : strip vi = strip vj) :
    ∃ v n, parse_file rows format_function id_of =
      .error (.duplicateId v n) := by
  have hall0 : ∀ (k : Nat) (hk : k < rows.length),
      ∃ s, format_function (0 + k) (rows.get ⟨k, hk⟩) = .ok s := by
    intro k hk
    simpa using hall k hk
  rcases parse_file_aux_trim format_function id_of raw_id hformat rows 0 []
      hall0 with ⟨res, _, hkeys, hnodup⟩ | h
  · exfalso
    have hnd : (res.map Prod.fst).Nodup := hnodup (by simp)
    rw [hkeys] at hnd
    simp only [List.map_nil, List.nil_append] at hnd
    have hi : i < rows.length := Nat.lt_trans hij hj
    have hilen :
        i < (rows.map (fun row => strip ((raw_id row).getD ""))).length := by
      simpa using hi
    have hjlen :
        j < (rows.map (fun row => strip ((raw_id row).getD ""))).length := by
      simpa using hj
    have hgi : (rows.map (fun row => strip ((raw_id row).getD ""))).get
        ⟨i, hilen⟩ = strip ((raw_id (rows.get ⟨i, hi⟩)).getD "") :=
      List.get_map _
    have hgj : (rows.map (fun row => strip ((raw_id row).getD ""))).get
        ⟨j, hjlen⟩ = strip ((raw_id (rows.get ⟨j, hj⟩)).getD "") :=
      List.get_map _
    have hti : strip ((raw_id (rows.get ⟨i, hi⟩)).getD "") = strip vi := by
      rw [show raw_id (rows.get ⟨i, hi⟩) = some vi from hvi]
      rfl
    have htj : strip ((raw_id (rows.get ⟨j, hj⟩)).getD "") = strip vj := by
      rw [hvj]
      rfl
    have heqget : (rows.map (fun row => strip ((raw_id row).getD ""))).get
        ⟨i, hilen⟩ = (rows.map (fun row => strip ((raw_id row).getD ""))).get
        ⟨j, hjlen⟩ := by
      rw [hgi, hgj, hti, htj, htrim]
    have hfin := (hnd.get_inj_iff).mp heqget
    simp only [Fin.mk.injEq] at hfin
    omega
  · exact h

/-- C10: in both input files, duplicate detection operates on ids already
trimmed of surrounding whitespace: if two rows (all of which pass field
validation) have raw ids equal after trimming, `parse_file` aborts with a
duplicate-id error — via `format_slots` for the slots file and via
`format_resident` for the residents file. -/
theorem C10_duplicate_after_trim :
    (∀ (rows : List RawSlotRow) (i j : Nat) (hij : i < j)
      (hj : j < rows.length),
      (∀ (k : Nat) (hk : k < rows.length),
        ∃ s, format_slots k (rows.get ⟨k, hk⟩) = .ok s) →
      ∀ (vi vj : String),
        (rows.get ⟨i, Nat.lt_trans hij hj⟩).id = some vi →
        (rows.get ⟨j, hj⟩).id = some vj → strip vi = strip vj →
        ∃ v n, parse_file rows format_slots Slot.id =
          .error (.duplicateId v n)) ∧
    (∀ (rows : List RawResidentRow) (i j : Nat) (hij : i < j)
      (hj : j < rows.length),
      (∀ (k : Nat) (hk : k < rows.length),
        ∃ r, format_resident k (rows.get ⟨k, hk⟩) = .ok r) →
      ∀ (vi vj : String),
        (rows.get ⟨i, Nat.lt_trans hij hj⟩).id = some vi →
        (rows.get ⟨j, hj⟩).id = some vj → strip vi = strip vj →
        ∃ v n, parse_file rows format_resident Resident.id =
          .error (.duplicateId v n)) :=
  ⟨fun rows i j hij hj hall vi vj hvi hvj htrim =>
    parse_file_trim_duplicate format_slots Slot.id RawSlotRow.id
      (fun _ _ _ h => format_slots_ok_id h) rows i j hij hj hall
      vi vj hvi hvj htrim,
   fun rows i j hij hj hall vi vj hvi hvj htrim =>
    parse_file_trim_duplicate format_resident Resident.id RawResidentRow.id
      (fun _ _ _ h => format_resident_ok_id h) rows i j hij hj hall
      vi vj hvi hvj htrim⟩

/-- Witness for C10 on both files: slot ids "a" and " a" differ by a leading
space, resident ids "b" and a "b" followed by a form feed differ by Python
whitespace outside the ASCII space/tab class; both trigger the duplicate
abort. -/
theorem C10_witness :
    strip "a" = strip " a" ∧ strip "b" = strip "b\x0c" ∧
    (∃ v n, parse_file [⟨some "a", some "false", some "false"⟩,
        ⟨some " a", some "true", some "false"⟩] format_slots Slot.id =
      .error (.duplicateId v n)) ∧
    (∃ v n, parse_file
        [⟨some "b", some "1", some "false", some "false", some "false"⟩,
          ⟨some "b\x0c", some "2", some "true", some "false", some "true"⟩]
        format_resident Resident.id = .error (.duplicateId v n)) :=
  ⟨by decide, by decide,
    C10_duplicate_after_trim.1
      [⟨some "a", some "false", some "false"⟩,
        ⟨some " a", some "true", some "false"⟩]
      0 1 (by decide) (by decide)
      (fun k hk => by
        match k with
        | 0 => exact ⟨⟨"a", false, false⟩, by rfl⟩
        | 1 => exact ⟨⟨"a", true, false⟩, by rfl⟩
        | n + 2 =>
          have h2 : ([⟨some "a", some "false", some "false"⟩,
              ⟨some " a", some "true", some "false"⟩] :
              List RawSlotRow).length = 2 := rfl
          rw [h2] at hk
          omega)
      "a" " a" (by rfl) (by rfl) (by decide),
    C10_duplicate_after_trim.2
      [⟨some "b", some "1", some "false", some "false", some "false"⟩,
        ⟨some "b\x0c", some "2", some "true", some "false", some "true"⟩]
      0 1 (by decide) (by decide)
      (fun k hk => by
        match k with
        | 0 => exact ⟨⟨"b", 1, false, false, false⟩, by rfl⟩
        | 1 => exact ⟨⟨"b", 2, true, false, true⟩, by rfl⟩
        | n + 2 =>
          have h2 : ([⟨some "b", some "1", some "false", some "false",
                some "false"⟩,
              ⟨some "b\x0c", some "2", some "true", some "false",
                some "true"⟩] :
              List RawResidentRow).length = 2 := rfl
          rw [h2] at hk
          omega)
      "b" "b\x0c" (by rfl) (by rfl) (by decide)⟩

end SlotsRaffle
